import Mathlib

/-!
Verification development for the notes-app Note Storage & Security Engine.

The definitions below are a shallow embedding of the TypeScript sources:
* `src/services/encryption.ts` (EncryptionService),
* `src/services/noteService.ts` (NoteService),
* `src/services/database.ts` (DatabaseService),
* `src/hooks/useAutoSave.ts` (the auto-save write coordinator).

External collaborators are modelled as follows:
* The CryptoJS primitives (AES, PBKDF2) are external library code, not part of
  the repository; they are modelled as an ideal symmetric scheme: `deriveKey`
  is the injective pairing of password and salt, `aesEncrypt` tags the
  plaintext with the key, and `aesDecryptUtf8` returns the plaintext when the
  key matches and `none` (standing for undecodable/garbage bytes, the caught
  exception path in the source) otherwise.
* The DOM-based `extractPlainText` helper is modelled as an explicit function
  parameter `ept : String → String` threaded through the NoteService
  operations.
* Randomness (fresh salts, UUIDs) and the wall clock (`new Date()`,
  `Date.now()`) are modelled by passing the generated value / the current
  time as explicit arguments.
* `Date` values are modelled as natural-number timestamps.
* Store I/O performed through Dexie can fail; each operation that touches the
  store takes a `storeOk : Bool` oracle telling whether that store call
  succeeds or throws.
* The `encryptedData` field holds a JSON-serialized envelope in the source;
  serialization round-trips, so it is modelled structurally as an
  `Option EncryptedEnvelope`.
-/

/-- Ideal model of a PBKDF2-derived key: `deriveKey` in `encryption.ts`
(PBKDF2 with 10000 iterations is collision-free in the ideal model, so the
derived key is the pair of password and salt). -/
structure DerivedKey where
  password : String
  salt : String
deriving DecidableEq, Repr

/-- Model of `deriveKey(password, salt)` from `encryption.ts`. -/
def deriveKey (password salt : String) : DerivedKey :=
  { password := password, salt := salt }

/-- Ideal-cipher model of a CryptoJS AES ciphertext: the ciphertext determines
the plaintext exactly for the holder of the key it was produced under. -/
structure CipherText where
  keyTag : DerivedKey
  payload : String
deriving DecidableEq, Repr

/-- Model of `CryptoJS.AES.encrypt(msg, key).toString()`. -/
def aesEncrypt (msg : String) (key : DerivedKey) : CipherText :=
  { keyTag := key, payload := msg }

/-- Model of `CryptoJS.AES.decrypt(c, key).toString(CryptoJS.enc.Utf8)`: yields the
plaintext under the right key; under a wrong key the bytes are garbage and
UTF-8 decoding fails (`none`), which the source's `try`/`catch` turns into
the decryption error. -/
def aesDecryptUtf8 (c : CipherText) (key : DerivedKey) : Option String :=
  if c.keyTag = key then some c.payload else none

/-- Result record of `EncryptionService.encryptNote`. -/
structure EncryptResult where
  encryptedContent : CipherText
  encryptedTitle : CipherText
  salt : String
deriving DecidableEq, Repr

/-- Result record of `EncryptionService.decryptNote`. -/
structure DecryptedFields where
  content : String
  title : String
deriving DecidableEq, Repr

/-- The message of the error thrown by `EncryptionService.decryptNote`. -/
def decryptionErrorMsg : String :=
  "Failed to decrypt note. Please check your password."

/-- Model of `EncryptionService.encryptNote(content, title, password)` from
`encryption.ts` lines 10-30; the randomly generated salt is passed in
explicitly. -/
def EncryptionService.encryptNote (content title password salt : String) :
    EncryptResult :=
  let key := deriveKey password salt
  { encryptedContent := aesEncrypt content key
    encryptedTitle := aesEncrypt title key
    salt := salt }

/-- Model of `EncryptionService.decryptNote(encryptedContent, encryptedTitle, password,
salt)` from `encryption.ts` lines 35-63.  The source throws when either
decrypted string is falsy (empty) or when decryption itself throws; both
paths end in the same error, modelled as `Except.error`. -/
def EncryptionService.decryptNote (encryptedContent encryptedTitle : CipherText)
    (password salt : String) : Except String DecryptedFields :=
  let key := deriveKey password salt
  match aesDecryptUtf8 encryptedContent key, aesDecryptUtf8 encryptedTitle key with
  | some content, some title =>
      if content = "" ∨ title = "" then Except.error decryptionErrorMsg
      else Except.ok { content := content, title := title }
  | some _, none => Except.error decryptionErrorMsg
  | none, some _ => Except.error decryptionErrorMsg
  | none, none => Except.error decryptionErrorMsg

/-- Envelope stored (JSON-serialized) in `Note.encryptedData` by
`NoteService.encryptNote`: `{ content, title, salt }`. -/
structure EncryptedEnvelope where
  content : CipherText
  title : CipherText
  salt : String
deriving DecidableEq, Repr

/-- Model of `NoteVersion` from `src/types/index.ts`. -/
structure NoteVersion where
  id : String
  noteId : String
  content : String
  title : String
  timestamp : Nat
  versionNumber : Nat
deriving DecidableEq, Repr

/-- Model of `Note` from `src/types/index.ts`.  Optional TypeScript fields are
`Option`s; `plainTextContent` and `lastAccessedAt` are always set by the
engine's own operations and are modelled as plain fields.  `aiMetadata` is an
opaque blob the core never inspects. -/
structure Note where
  id : String
  title : String
  content : String
  plainTextContent : String
  isPinned : Bool
  isEncrypted : Bool
  hasBeenEncrypted : Bool
  encryptedData : Option EncryptedEnvelope
  tags : List String
  createdAt : Nat
  updatedAt : Nat
  lastAccessedAt : Nat
  version : Option Nat
  versions : Option (List NoteVersion)
  aiMetadata : Option String
deriving DecidableEq, Repr

/-- The `Partial<Note>` update records that the repository passes to
`NoteService.updateNote`; a `none` field is an absent property, untouched by
the object spread. -/
structure NoteUpdates where
  title : Option String := none
  content : Option String := none
  isPinned : Option Bool := none
  tags : Option (List String) := none
  lastAccessedAt : Option Nat := none
  aiMetadata : Option String := none
deriving DecidableEq, Repr

/-- The object spread `{ ...existingNote, ...updates }`. -/
def applyUpdates (n : Note) (u : NoteUpdates) : Note :=
  { n with
    title := u.title.getD n.title
    content := u.content.getD n.content
    isPinned := u.isPinned.getD n.isPinned
    tags := u.tags.getD n.tags
    lastAccessedAt := u.lastAccessedAt.getD n.lastAccessedAt
    aiMetadata := u.aiMetadata <|> n.aiMetadata }

/-- The note built by `NoteService.createNote` (`noteService.ts` lines
11-29); the generated UUID and `new Date()` are passed in. -/
def NoteService.createNoteLocal (ept : String → String) (id title content : String)
    (now : Nat) : Note :=
  { id := id
    title := title
    content := content
    plainTextContent := ept content
    isPinned := false
    isEncrypted := false
    hasBeenEncrypted := false
    encryptedData := none
    tags := []
    createdAt := now
    updatedAt := now
    lastAccessedAt := now
    version := none
    versions := none
    aiMetadata := none }

/-- The updated note built by `NoteService.updateNote` (`noteService.ts`
lines 31-44): spread the updates, bump `updatedAt`, and recompute
`plainTextContent` only when `updates.content` is truthy — the source tests
`updates.content ?`, so an empty-string content update keeps the stale
`plainTextContent`. -/
def NoteService.updateNoteLocal (ept : String → String) (existing : Note)
    (u : NoteUpdates) (now : Nat) : Note :=
  let merged := applyUpdates existing u
  { merged with
    updatedAt := now
    plainTextContent :=
      match u.content with
      | some c => if c = "" then existing.plainTextContent else ept c
      | none => existing.plainTextContent }

/-- The encrypted note built by `NoteService.encryptNote` (`noteService.ts`
lines 88-110): encrypt title and content, store the envelope, clear
`content`, keep the original `title`, bump `updatedAt`.  The source does not
touch `plainTextContent` here. -/
def NoteService.encryptNoteLocal (note : Note) (password salt : String)
    (now : Nat) : Note :=
  let r := EncryptionService.encryptNote note.content note.title password salt
  { note with
    isEncrypted := true
    hasBeenEncrypted := true
    encryptedData := some { content := r.encryptedContent, title := r.encryptedTitle, salt := r.salt }
    content := ""
    title := note.title
    updatedAt := now }

/-- The version record and updated note built by `NoteService.createVersion`
(`noteService.ts` lines 310-332): `versionNumber = (note.version || 0) + 1`
(`Option.getD` agrees with the JS falsy check since both send `0` to `0`),
the record is appended to `versions` and the counter is set to the new
number. -/
def NoteService.createVersionLocal (note : Note) (vid content title : String)
    (now : Nat) : Note × NoteVersion :=
  let versionNumber := note.version.getD 0 + 1
  let v : NoteVersion :=
    { id := vid, noteId := note.id, content := content, title := title
      timestamp := now, versionNumber := versionNumber }
  ({ note with
      version := some versionNumber
      versions := some (note.versions.getD [] ++ [v]) }, v)

/-- The note rewritten by `NoteService.deleteVersion` (`noteService.ts` lines
363-375): filter the version with the given id out of `versions`; the
`version` counter is left untouched.  When `versions` is absent the source
returns `false` without saving. -/
def NoteService.deleteVersionLocal (note : Note) (versionId : String) : Note :=
  match note.versions with
  | none => note
  | some vs => { note with versions := some (vs.filter (fun v => v.id ≠ versionId)) }

/-- The note rewritten by `NoteService.clearVersions` (`noteService.ts` lines
377-389): empty `versions` and reset the counter to 0. -/
def NoteService.clearVersionsLocal (note : Note) : Note :=
  { note with versions := some [], version := some 0 }

/-- Model of `versions.find(v => v.id === versionId)` used by `NoteService.getVersion`
(`noteService.ts` lines 339-342). -/
def NoteService.findVersion (note : Note) (versionId : String) : Option NoteVersion :=
  (note.versions.getD []).find? (fun v => v.id = versionId)

/-- The restored note built by `NoteService.restoreToVersion` (`noteService.ts`
lines 344-361): copy the snapshot's title and content, recompute
`plainTextContent`, bump `updatedAt`; all other fields — in particular
`versions` and the `version` counter — are carried over unchanged. -/
def NoteService.restoreApply (ept : String → String) (note : Note)
    (v : NoteVersion) (now : Nat) : Note :=
  { note with
    title := v.title
    content := v.content
    plainTextContent := ept v.content
    updatedAt := now }

/-- The decrypted in-memory note built by `NoteService.decryptNote`
(`noteService.ts` lines 112-139) on success: `isEncrypted` cleared,
`hasBeenEncrypted` kept, plaintext restored, `plainTextContent` recomputed;
`encryptedData` is carried over by the spread. -/
def NoteService.decryptApply (ept : String → String) (note : Note)
    (f : DecryptedFields) : Note :=
  { note with
    isEncrypted := false
    hasBeenEncrypted := true
    content := f.content
    title := f.title
    plainTextContent := ept f.content }

/-- The error `StorageError`: a Dexie store call threw. -/
inductive StorageError
  | ioFailure
deriving DecidableEq, Repr

/-- In-memory state of `DatabaseService` (`database.ts` lines 18-28) together
with the contents of the persistent Dexie `notes` table. -/
structure DBState where
  store : List Note
  notesCache : List (String × Note)
  allNotesCache : Option (List Note)
  cacheTimestamp : Nat
deriving DecidableEq, Repr

/-- Model of `this.notesCache.get(id)` / `has(id)` on the point cache `Map`. -/
def cacheLookup (cache : List (String × Note)) (id : String) : Option Note :=
  (cache.find? (fun e => e.1 = id)).map (fun e => e.2)

/-- Model of `this.notesCache.set(id, note)` on the point cache `Map`. -/
def cacheSet (cache : List (String × Note)) (id : String) (note : Note) :
    List (String × Note) :=
  (id, note) :: cache.filter (fun e => e.1 ≠ id)

/-- Model of `this.db.notes.get(id)`: primary-key lookup in the Dexie table. -/
def storeGet (store : List Note) (id : String) : Option Note :=
  store.find? (fun n => n.id = id)

/-- Model of `this.db.notes.put(note)`: upsert by primary key. -/
def storePut (store : List Note) (note : Note) : List Note :=
  note :: store.filter (fun n => n.id ≠ note.id)

/-- Model of `CACHE_TTL = 5 * 60 * 1000` (`database.ts` line 23). -/
def CACHE_TTL : Nat := 5 * 60 * 1000

/-- The comparator of `getAllNotes` (`database.ts` lines 62-66) as a
"comes-no-later-than" test: pinned notes first, then descending
`updatedAt`. -/
def noteBefore (a b : Note) : Bool :=
  if a.isPinned && !b.isPinned then true
  else if !a.isPinned && b.isPinned then false
  else decide (b.updatedAt ≤ a.updatedAt)

/-- Insert into a list sorted by `noteBefore`. -/
def insertNote (n : Note) : List Note → List Note
  | [] => [n]
  | m :: ms => if noteBefore n m then n :: m :: ms else m :: insertNote n ms

/-- Model of `notes.sort(comparator)` from `getAllNotes`, modelled as insertion sort
with the same ordering. -/
def sortNotes (l : List Note) : List Note :=
  l.foldr insertNote []

/-- Model of `DatabaseService.getNote(id)` (`database.ts` lines 79-96): point-cache
hit wins; otherwise read through to the store and populate the cache; a
store error degrades to `null` with the state unchanged. -/
def DatabaseService.getNote (id : String) (storeOk : Bool) (s : DBState) :
    Option Note × DBState :=
  match cacheLookup s.notesCache id with
  | some n => (some n, s)
  | none =>
      if storeOk then
        match storeGet s.store id with
        | some note => (some note, { s with notesCache := cacheSet s.notesCache id note })
        | none => (none, s)
      else (none, s)

/-- Model of `DatabaseService.saveNote(note)` (`database.ts` lines 98-109): write
through to the store, update the point cache, invalidate the all-notes cache
(`invalidateAllNotesCache` nulls the cache and zeroes the timestamp); a store
error is rethrown with the caches untouched. -/
def DatabaseService.saveNote (note : Note) (storeOk : Bool) (s : DBState) :
    Except StorageError DBState :=
  if storeOk then
    Except.ok
      { store := storePut s.store note
        notesCache := cacheSet s.notesCache note.id note
        allNotesCache := none
        cacheTimestamp := 0 }
  else Except.error StorageError.ioFailure

/-- The reload branch of `getAllNotes` (`database.ts` lines 59-76): read the
full table, sort, refresh the cache and timestamp; a store error degrades to
the empty list with the state unchanged. -/
def DatabaseService.loadAllNotes (now : Nat) (storeOk : Bool) (s : DBState) :
    List Note × DBState :=
  if storeOk then
    let sorted := sortNotes s.store
    (sorted, { s with allNotesCache := some sorted, cacheTimestamp := now })
  else ([], s)

/-- Model of `DatabaseService.getAllNotes()` (`database.ts` lines 51-77): return the
cached list while it is younger than the TTL, else reload.  (JS `now -
cacheTimestamp` on a clock that ran backwards is negative and so below the
TTL; truncated `Nat` subtraction gives `0`, below the TTL as well.) -/
def DatabaseService.getAllNotes (now : Nat) (storeOk : Bool) (s : DBState) :
    List Note × DBState :=
  match s.allNotesCache with
  | some cached =>
      if now - s.cacheTimestamp < CACHE_TTL then (cached, s)
      else DatabaseService.loadAllNotes now storeOk s
  | none => DatabaseService.loadAllNotes now storeOk s

/-- Model of `NoteService.updateNote(id, updates)` (`noteService.ts` lines 31-44) over
the database state: read the existing note, build the update, save it.  A
save failure propagates. -/
def NoteService.updateNote (ept : String → String) (id : String)
    (u : NoteUpdates) (now : Nat) (storeOk : Bool) (s : DBState) :
    Except StorageError (Option Note × DBState) :=
  let r := DatabaseService.getNote id storeOk s
  match r.1 with
  | none => Except.ok (none, r.2)
  | some existing =>
      let updated := NoteService.updateNoteLocal ept existing u now
      match DatabaseService.saveNote updated storeOk r.2 with
      | Except.ok s2 => Except.ok (some updated, s2)
      | Except.error e => Except.error e

/-- Model of `NoteService.getNote(id)` (`noteService.ts` lines 69-75) over the
database state: read the note and, when found, persist a `lastAccessedAt`
touch through `NoteService.updateNote`; the pre-touch note is returned. -/
def NoteService.getNote (ept : String → String) (id : String) (now : Nat)
    (storeOk : Bool) (s : DBState) : Except StorageError (Option Note × DBState) :=
  let r := DatabaseService.getNote id storeOk s
  match r.1 with
  | none => Except.ok (none, r.2)
  | some note =>
      match NoteService.updateNote ept id { lastAccessedAt := some now } now storeOk r.2 with
      | Except.ok p => Except.ok (some note, p.2)
      | Except.error e => Except.error e

/-- Process state seen by `NoteService.decryptNote`: the database service
plus the encryption service's volatile session-password map. -/
structure AppState where
  db : DBState
  sessionPasswords : List (String × String)
deriving DecidableEq, Repr

/-- Model of `EncryptionService.storeSessionPassword` (`encryption.ts` lines 83-85). -/
def storeSessionPassword (noteId password : String)
    (m : List (String × String)) : List (String × String) :=
  (noteId, password) :: m.filter (fun e => e.1 ≠ noteId)

/-- Model of `NoteService.decryptNote(id, password)` (`noteService.ts` lines 112-139):
read the note (via `databaseService.getNote`, not the touching
`NoteService.getNote`); bail out with `null` unless it is encrypted with an
envelope on record; decrypt; on success cache the session password and
return an in-memory decrypted copy without saving anything; on failure
rethrow as `Invalid password`. -/
def NoteService.decryptNote (ept : String → String) (id password : String)
    (storeOk : Bool) (st : AppState) :
    Except String (Option Note) × AppState :=
  let r := DatabaseService.getNote id storeOk st.db
  let st1 : AppState := { st with db := r.2 }
  match r.1 with
  | none => (Except.ok none, st1)
  | some note =>
      if !note.isEncrypted then (Except.ok none, st1)
      else
        match note.encryptedData with
        | none => (Except.ok none, st1)
        | some env =>
            match EncryptionService.decryptNote env.content env.title password env.salt with
            | Except.ok f =>
                (Except.ok (some (NoteService.decryptApply ept note f)),
                 { st1 with sessionPasswords := storeSessionPassword id password st1.sessionPasswords })
            | Except.error _ => (Except.error "Invalid password", st1)

/-- Model of `actualDelay = Math.min(delay, Math.max(100, maxDelay -
timeSinceLastSave))` from `useAutoSave.ts` line 41; `Int` because `maxDelay -
timeSinceLastSave` can go negative in JS. -/
def actualDelay (delay maxDelay timeSinceLastSave : Int) : Int :=
  min delay (max 100 (maxDelay - timeSinceLastSave))

/-- State held in the `useAutoSave` hook's refs (`useAutoSave.ts` lines
14-16), plus bookkeeping that makes timer semantics explicit: `timeout` is
the currently armed timer (`clearTimeout` un-arms it, so a cancelled or
spent timer id never fires), `nextTimerId` supplies fresh timer handles, and
`saved` logs the notes actually persisted by timer fires, newest first. -/
structure AutoSaveState where
  pendingNote : Option Note
  timeout : Option Nat
  armedDelay : Option Int
  lastSave : Nat
  nextTimerId : Nat
  saved : List Note
deriving DecidableEq, Repr

/-- Model of `scheduleSave(note)` (`useAutoSave.ts` lines 31-49): record the pending
note, clear any existing timeout, and arm a single fresh timer with
`actualDelay` computed from the time since the last save. -/
def scheduleSave (delay maxDelay : Int) (note : Note) (now : Nat)
    (s : AutoSaveState) : AutoSaveState :=
  { s with
    pendingNote := some note
    timeout := some s.nextTimerId
    armedDelay := some (actualDelay delay maxDelay ((now : Int) - (s.lastSave : Int)))
    nextTimerId := s.nextTimerId + 1 }

/-- A timer fire (`useAutoSave.ts` lines 43-48 together with `saveNote` lines
18-29): only the currently armed timer can fire (a cleared one was
cancelled); the fire takes the pending note, saves it (recording the save
time), and clears the pending slot.  After firing the timer is spent. -/
def fireTimer (tid : Nat) (now : Nat) (s : AutoSaveState) : AutoSaveState :=
  if s.timeout = some tid then
    match s.pendingNote with
    | some n =>
        { s with pendingNote := none, timeout := none, saved := n :: s.saved, lastSave := now }
    | none => { s with timeout := none }
  else s

/-- Armed timer handles were issued in the past. -/
def AutoSaveState.timerWF (s : AutoSaveState) : Prop :=
  ∀ t, s.timeout = some t → t < s.nextTimerId

/-- Version-history state invariant: every recorded snapshot number is
positive, at most the running counter, and the numbers are strictly
increasing along the list. -/
def VersionInv (n : Note) : Prop :=
  (∀ v ∈ n.versions.getD [], 1 ≤ v.versionNumber ∧ v.versionNumber ≤ n.version.getD 0) ∧
  (n.versions.getD []).Pairwise (fun a b => a.versionNumber < b.versionNumber)

/-- Note states reachable through the engine's version-relevant operations
other than `clearVersions` (which deliberately resets the counter): creation,
snapshot creation, version deletion, updates and restores. -/
inductive VersionReach (ept : String → String) : Note → Prop
  | fresh (id title content : String) (now : Nat) :
      VersionReach ept (NoteService.createNoteLocal ept id title content now)
  | create (n : Note) (vid content title : String) (now : Nat) :
      VersionReach ept n →
      VersionReach ept (NoteService.createVersionLocal n vid content title now).1
  | delete (n : Note) (vid : String) :
      VersionReach ept n → VersionReach ept (NoteService.deleteVersionLocal n vid)
  | update (n : Note) (u : NoteUpdates) (now : Nat) :
      VersionReach ept n → VersionReach ept (NoteService.updateNoteLocal ept n u now)
  | restore (n : Note) (v : NoteVersion) (now : Nat) :
      VersionReach ept n → VersionReach ept (NoteService.restoreApply ept n v now)

/-- C1 counterexample: the lock/unlock round trip does not hold for every
title and content — encrypting an empty `content` (here with title `"T"`,
password `"pw"`) and decrypting with the same password and salt hits the
source's falsy check `if (!content || !title)` and throws the decryption
error instead of returning the original strings. -/
theorem claim_C1_counterexample :
    EncryptionService.decryptNote
      (EncryptionService.encryptNote "" "T" "pw" "s0").encryptedContent
      (EncryptionService.encryptNote "" "T" "pw" "s0").encryptedTitle
      "pw" (EncryptionService.encryptNote "" "T" "pw" "s0").salt
      = Except.error decryptionErrorMsg ∧
    (Except.error decryptionErrorMsg : Except String DecryptedFields)
      ≠ Except.ok { content := "", title := "T" } := by
  constructor
  · rfl
  · intro h
    exact Except.noConfusion h

/-- C1 (amended): for every non-empty title and non-empty content, encrypting
with `EncryptionService.encryptNote` and decrypting the resulting ciphertexts
with `EncryptionService.decryptNote` under the same password and the returned
salt yields exactly the original title and content. -/
theorem claim_C1_roundtrip (content title password salt : String)
    (hc : content ≠ "") (ht : title ≠ "") :
    EncryptionService.decryptNote
      (EncryptionService.encryptNote content title password salt).encryptedContent
      (EncryptionService.encryptNote content title password salt).encryptedTitle
      password (EncryptionService.encryptNote content title password salt).salt
      = Except.ok { content := content, title := title } := by
  simp [EncryptionService.encryptNote, EncryptionService.decryptNote,
        aesEncrypt, aesDecryptUtf8, hc, ht]

/-- Witness for C1 (amended) at title `"T"`, content `"C"`, password `"pw"`,
salt `"s0"`. -/
theorem claim_C1_witness :
    EncryptionService.decryptNote
      (EncryptionService.encryptNote "C" "T" "pw" "s0").encryptedContent
      (EncryptionService.encryptNote "C" "T" "pw" "s0").encryptedTitle
      "pw" (EncryptionService.encryptNote "C" "T" "pw" "s0").salt
      = Except.ok { content := "C", title := "T" } :=
  claim_C1_roundtrip "C" "T" "pw" "s0" (by decide) (by decide)

/-- C3: `EncryptionService.decryptNote` either returns non-empty content and
title or fails with the decryption error; decryption under any password
other than the one used to encrypt fails with the decryption error; and in
the concrete scenario — title `"T"`, content `"C"` locked with password
`"Abc123!"` — unlocking with `"Abc123!"` returns the original fields while
unlocking with `"wrong"` fails with the decryption error. -/
theorem claim_C3_decrypt_failure_behaviour :
    (∀ cc ct pw salt,
      (∃ f, EncryptionService.decryptNote cc ct pw salt = Except.ok f ∧
        f.content ≠ "" ∧ f.title ≠ "") ∨
      EncryptionService.decryptNote cc ct pw salt = Except.error decryptionErrorMsg) ∧
    (∀ content title pw pw2 salt, pw2 ≠ pw →
      EncryptionService.decryptNote
        (EncryptionService.encryptNote content title pw salt).encryptedContent
        (EncryptionService.encryptNote content title pw salt).encryptedTitle
        pw2 salt = Except.error decryptionErrorMsg) ∧
    EncryptionService.decryptNote
      (EncryptionService.encryptNote "C" "T" "Abc123!" "s0").encryptedContent
      (EncryptionService.encryptNote "C" "T" "Abc123!" "s0").encryptedTitle
      "Abc123!" "s0" = Except.ok { content := "C", title := "T" } ∧
    EncryptionService.decryptNote
      (EncryptionService.encryptNote "C" "T" "Abc123!" "s0").encryptedContent
      (EncryptionService.encryptNote "C" "T" "Abc123!" "s0").encryptedTitle
      "wrong" "s0" = Except.error decryptionErrorMsg := by
  refine ⟨?_, ?_, ?_, ?_⟩
  · intro cc ct pw salt
    simp only [EncryptionService.decryptNote]
    rcases hc : aesDecryptUtf8 cc (deriveKey pw salt) with _ | c <;>
      rcases ht : aesDecryptUtf8 ct (deriveKey pw salt) with _ | t
    · simp
    · simp
    · simp
    · by_cases h : c = "" ∨ t = ""
      · simp [h]
      · push_neg at h
        exact Or.inl ⟨{ content := c, title := t }, by simp [h.1, h.2], h.1, h.2⟩
  · intro content title pw pw2 salt hne
    have hne2 : pw ≠ pw2 := fun h => hne h.symm
    simp [EncryptionService.encryptNote, EncryptionService.decryptNote,
          aesEncrypt, aesDecryptUtf8, deriveKey, hne2]
  · rfl
  · rfl

/-- Witness for C3: unlocking the `"Abc123!"`-locked note with the distinct
password `"nope"` fails with the decryption error. -/
theorem claim_C3_witness :
    EncryptionService.decryptNote
      (EncryptionService.encryptNote "C" "T" "Abc123!" "s0").encryptedContent
      (EncryptionService.encryptNote "C" "T" "Abc123!" "s0").encryptedTitle
      "nope" "s0" = Except.error decryptionErrorMsg :=
  claim_C3_decrypt_failure_behaviour.2.1 "C" "T" "Abc123!" "nope" "s0" (by decide)

/-- Every note state reachable through creation, snapshots, version deletion,
updates and restores satisfies the version-history invariant. -/
theorem versionInv_of_reach (ept : String → String) (n : Note)
    (h : VersionReach ept n) : VersionInv n := by
  induction h with
  | fresh id title content now =>
      simp [VersionInv, NoteService.createNoteLocal]
  | create m vid content title now _ ih =>
      obtain ⟨hb, hp⟩ := ih
      constructor
      · intro v hv
        simp only [NoteService.createVersionLocal, Option.getD_some] at hv ⊢
        rcases List.mem_append.mp hv with h1 | h1
        · have := hb v h1
          omega
        · rw [List.mem_singleton] at h1
          subst h1
          dsimp only
          omega
      · simp only [NoteService.createVersionLocal, Option.getD_some]
        rw [List.pairwise_append]
        refine ⟨hp, by simp, ?_⟩
        intro a ha b hb2
        have h1 := hb a ha
        rw [List.mem_singleton] at hb2
        subst hb2
        dsimp only
        omega
  | delete m vid _ ih =>
      obtain ⟨hb, hp⟩ := ih
      unfold NoteService.deleteVersionLocal
      rcases hv : m.versions with _ | vs
      · exact ⟨hb, hp⟩
      · rw [hv] at hb hp
        simp only [Option.getD_some] at hb hp
        constructor
        · intro v hmem
          simp only [Option.getD_some] at hmem
          exact hb v (List.mem_of_mem_filter hmem)
        · simp only [Option.getD_some]
          exact hp.sublist (List.filter_sublist vs)
  | update m u now _ ih =>
      simpa [VersionInv, NoteService.updateNoteLocal, applyUpdates] using ih
  | restore m v now _ ih =>
      simpa [VersionInv, NoteService.restoreApply] using ih

/-- C2 (amended): on any reachable note state, `NoteService.createVersion`
assigns `versionNumber = (note.version || 0) + 1` — the running counter plus
one, not `max(existing versionNumbers) + 1` — sets the counter to that
number, and the new number is strictly greater than every recorded
`versionNumber`, so version numbers are never reused: after a deletion the
next created version continues from the counter (the highest number ever
assigned), which can exceed the highest remaining number plus one. -/
theorem claim_C2_versionNumber_from_counter (ept : String → String) (n : Note)
    (h : VersionReach ept n) (vid content title : String) (now : Nat) :
    (NoteService.createVersionLocal n vid content title now).2.versionNumber
      = n.version.getD 0 + 1 ∧
    (NoteService.createVersionLocal n vid content title now).1.version
      = some (n.version.getD 0 + 1) ∧
    ∀ w ∈ n.versions.getD [], w.versionNumber
      < (NoteService.createVersionLocal n vid content title now).2.versionNumber := by
  refine ⟨rfl, rfl, ?_⟩
  intro w hw
  have hinv := versionInv_of_reach ept n h
  have hb := hinv.1 w hw
  have : (NoteService.createVersionLocal n vid content title now).2.versionNumber
      = n.version.getD 0 + 1 := rfl
  omega

/-- Witness for C2 (amended) on a freshly created note: the first snapshot
gets `versionNumber = 1`. -/
theorem claim_C2_witness :
    (NoteService.createVersionLocal
        (NoteService.createNoteLocal (fun s => s) "n" "T" "c" 0)
        "v1" "c0" "t0" 1).2.versionNumber
      = (NoteService.createNoteLocal (fun s => s) "n" "T" "c" 0).version.getD 0 + 1 ∧
    (NoteService.createVersionLocal
        (NoteService.createNoteLocal (fun s => s) "n" "T" "c" 0)
        "v1" "c0" "t0" 1).1.version
      = some ((NoteService.createNoteLocal (fun s => s) "n" "T" "c" 0).version.getD 0 + 1) :=
  And.intro
    (claim_C2_versionNumber_from_counter (fun s => s) _
      (VersionReach.fresh "n" "T" "c" 0) "v1" "c0" "t0" 1).1
    (claim_C2_versionNumber_from_counter (fun s => s) _
      (VersionReach.fresh "n" "T" "c" 0) "v1" "c0" "t0" 1).2.1

/-- Highest `versionNumber` among a note's recorded versions (0 when there
are none) — the quantity the claim says the next snapshot continues from. -/
def maxVersionNumber (n : Note) : Nat :=
  (n.versions.getD []).foldr (fun v acc => max v.versionNumber acc) 0

/-- C2 counterexample: snapshot twice, delete the second snapshot, snapshot
again — the new `versionNumber` is `3` (counter plus one) while
`max(existing versionNumbers) + 1 = 2`, refuting the claimed formula. -/
theorem claim_C2_counterexample :
    (NoteService.createVersionLocal
        (NoteService.deleteVersionLocal
          (NoteService.createVersionLocal
            (NoteService.createVersionLocal
              (NoteService.createNoteLocal (fun s => s) "n" "T" "c" 0)
              "v1" "c0" "t0" 1).1
            "v2" "c1" "t1" 2).1
          "v2")
        "v3" "c2" "t2" 3).2.versionNumber = 3 ∧
    maxVersionNumber
        (NoteService.deleteVersionLocal
          (NoteService.createVersionLocal
            (NoteService.createVersionLocal
              (NoteService.createNoteLocal (fun s => s) "n" "T" "c" 0)
              "v1" "c0" "t0" 1).1
            "v2" "c1" "t1" 2).1
          "v2") + 1 = 2 ∧
    (3 : Nat) ≠ 2 := by
  refine ⟨rfl, ?_, by decide⟩
  decide

/-- Membership is preserved by sorted insertion. -/
theorem mem_insertNote (x n : Note) (l : List Note) :
    x ∈ insertNote n l ↔ x = n ∨ x ∈ l := by
  induction l with
  | nil => simp [insertNote]
  | cons m ms ih =>
      simp only [insertNote]
      by_cases h : noteBefore n m = true
      · simp [h]
      · simp only [h]
        simp only [Bool.false_eq_true, if_false, List.mem_cons, ih]
        tauto

/-- The function `sortNotes` reorders but neither adds nor drops notes. -/
theorem mem_sortNotes (x : Note) (l : List Note) : x ∈ sortNotes l ↔ x ∈ l := by
  induction l with
  | nil => simp [sortNotes]
  | cons m ms ih =>
      simp only [sortNotes, List.foldr] at ih ⊢
      rw [mem_insertNote, ih]
      simp


/-- C4: after a successful `saveNote`, `getAllNotes` reflects the save even
when the previous all-notes cache would still have been within its 5-minute
TTL at the time of the read: the save invalidated the list cache, so the
read reloads from the store and returns a sorted copy of the post-save store
contents, in which the saved note occurs and any entry carrying its id is
the saved note itself. -/
theorem claim_C4_save_invalidates_all_notes_cache (s : DBState) (note : Note)
    (now2 : Nat) (stale : List Note) (s2 : DBState)
    (_hcache : s.allNotesCache = some stale)
    (_hfresh : now2 - s.cacheTimestamp < CACHE_TTL)
    (hsave : DatabaseService.saveNote note true s = Except.ok s2) :
    note ∈ (DatabaseService.getAllNotes now2 true s2).1 ∧
    (∀ m ∈ (DatabaseService.getAllNotes now2 true s2).1, m.id = note.id → m = note) ∧
    (DatabaseService.getAllNotes now2 true s2).1 = sortNotes s2.store := by
  simp only [DatabaseService.saveNote, if_true, Except.ok.injEq] at hsave
  subst hsave
  have hres : (DatabaseService.getAllNotes now2 true
      (DBState.mk (storePut s.store note) (cacheSet s.notesCache note.id note) none 0)).1
      = sortNotes (storePut s.store note) := rfl
  refine ⟨?_, ?_, rfl⟩
  · rw [hres, mem_sortNotes]
    exact List.mem_cons_self note _
  · intro m hm hid
    rw [hres, mem_sortNotes] at hm
    rcases List.mem_cons.mp hm with h | h
    · exact h
    · have hmem := List.of_mem_filter h
      simp [hid] at hmem

/-- Concrete one-note fixture for witnesses. -/
def sampleNote : Note :=
  NoteService.createNoteLocal (fun s => s) "n1" "T" "c" 0

/-- Empty database state whose all-notes cache is populated and fresh. -/
def emptyStaleDB : DBState :=
  { store := [], notesCache := [], allNotesCache := some [], cacheTimestamp := 0 }

/-- The database state produced by saving `sampleNote` into `emptyStaleDB`. -/
def savedDB : DBState :=
  { store := [sampleNote], notesCache := [("n1", sampleNote)],
    allNotesCache := none, cacheTimestamp := 0 }

/-- Witness for C4: saving `sampleNote` into `emptyStaleDB` (whose cached
list is still within the TTL at read time 0) yields `savedDB`, whose
`getAllNotes` result reflects the saved note. -/
theorem claim_C4_witness :
    sampleNote ∈ (DatabaseService.getAllNotes 0 true savedDB).1 ∧
    (DatabaseService.getAllNotes 0 true savedDB).1 = sortNotes savedDB.store :=
  And.intro
    (claim_C4_save_invalidates_all_notes_cache emptyStaleDB sampleNote 0 [] savedDB
      rfl (by decide) rfl).1
    (claim_C4_save_invalidates_all_notes_cache emptyStaleDB sampleNote 0 [] savedDB
      rfl (by decide) rfl).2.2

/-- Empty database state with nothing cached. -/
def emptyDB : DBState :=
  { store := [], notesCache := [], allNotesCache := none, cacheTimestamp := 0 }

/-- C5: read-path store failures degrade to "not found" — on a point-cache
miss with a failing store, `DatabaseService.getNote` returns `null` and
leaves the state untouched rather than propagating the error — while a
failing store write inside `DatabaseService.saveNote` propagates the storage
error to the caller. -/
theorem claim_C5_read_degrades_write_propagates (s : DBState) (id : String)
    (note : Note) (hmiss : cacheLookup s.notesCache id = none) :
    DatabaseService.getNote id false s = (none, s) ∧
    DatabaseService.saveNote note false s = Except.error StorageError.ioFailure := by
  constructor
  · simp [DatabaseService.getNote, hmiss]
  · rfl

/-- Witness for C5 on the empty cache. -/
theorem claim_C5_witness :
    DatabaseService.getNote "n1" false emptyDB = (none, emptyDB) ∧
    DatabaseService.saveNote sampleNote false emptyDB
      = Except.error StorageError.ioFailure :=
  claim_C5_read_degrades_write_propagates emptyDB "n1" sampleNote rfl

/-- Identity text projection: the simplest instantiation of the external
`extractPlainText` collaborator, under which plain strings project to
themselves. -/
def idEpt : String → String := fun s => s

/-- A plaintext note with content `"hello"`. -/
def helloNote : Note := NoteService.createNoteLocal idEpt "n1" "T" "hello" 0

/-- The note `helloNote` after `NoteService.encryptNote` with password `"pw"`. -/
def lockedHelloNote : Note := NoteService.encryptNoteLocal helloNote "pw" "s0" 1

/-- The note `helloNote` after `NoteService.updateNote` with the update
`{ content: "" }`. -/
def clearedHelloNote : Note :=
  NoteService.updateNoteLocal idEpt helloNote { content := some "" } 1

/-- C6 fails on the code: `NoteService.encryptNote` clears `content` but
carries the old `plainTextContent` over unchanged, and `NoteService.updateNote`
with the update `{ content: "" }` sets `content` to the empty string while
the falsy test `updates.content ?` skips the recomputation — in both
resulting states `plainTextContent` is `"hello"` although the projection of
the stored `content` is `""`. -/
theorem claim_C6_plainTextContent_not_recomputed :
    helloNote.plainTextContent = idEpt helloNote.content ∧
    lockedHelloNote.content = "" ∧
    lockedHelloNote.plainTextContent = "hello" ∧
    lockedHelloNote.plainTextContent ≠ idEpt lockedHelloNote.content ∧
    clearedHelloNote.content = "" ∧
    clearedHelloNote.plainTextContent = "hello" ∧
    clearedHelloNote.plainTextContent ≠ idEpt clearedHelloNote.content :=
  ⟨rfl, rfl, rfl, by decide, rfl, rfl, by decide⟩

/-- C7: the computed `actualDelay` lies in `[100, maxDelay]` whenever the
configured base delay does (defaults 2000/10000); re-scheduling arms a fresh
timer and the superseded timer can no longer fire; and once an armed timer
has fired, no further fire saves anything — so a burst of edits produces at
most one save. -/
theorem claim_C7_delay_bounds_and_single_fire :
    (∀ (delay maxDelay t : Int), 100 ≤ delay → delay ≤ maxDelay →
      100 ≤ actualDelay delay maxDelay t ∧ actualDelay delay maxDelay t ≤ maxDelay) ∧
    (∀ (delay maxDelay : Int) (note : Note) (now now2 : Nat) (s : AutoSaveState) (tid : Nat),
      s.timerWF → s.timeout = some tid →
      fireTimer tid now2 (scheduleSave delay maxDelay note now s)
        = scheduleSave delay maxDelay note now s) ∧
    (∀ (s : AutoSaveState) (tid now tid2 now2 : Nat), s.timeout = some tid →
      (fireTimer tid2 now2 (fireTimer tid now s)).saved = (fireTimer tid now s).saved) := by
  refine ⟨?_, ?_, ?_⟩
  · intro delay maxDelay t h1 h2
    unfold actualDelay
    constructor
    · exact le_min h1 (le_max_left _ _)
    · exact le_trans (min_le_left _ _) h2
  · intro delay maxDelay note now now2 s tid hwf htid
    have hlt : tid < s.nextTimerId := hwf tid htid
    have hne : ¬ ((scheduleSave delay maxDelay note now s).timeout = some tid) := by
      intro hcontra
      have heq : s.nextTimerId = tid := by
        simpa [scheduleSave] using hcontra
      omega
    unfold fireTimer
    rw [if_neg hne]
  · intro s tid now tid2 now2 htid
    rcases hp : s.pendingNote with _ | n <;>
      simp [fireTimer, htid, hp]

/-- An auto-save state with one armed timer (id 0) and a pending note. -/
def armedAutoSave : AutoSaveState :=
  { pendingNote := some sampleNote, timeout := some 0, armedDelay := some 2000,
    lastSave := 0, nextTimerId := 1, saved := [] }

/-- Witness for C7 at the default configuration (2000/10000), time since
last save 9950, and the armed fixture state. -/
theorem claim_C7_witness :
    (100 ≤ actualDelay 2000 10000 9950 ∧ actualDelay 2000 10000 9950 ≤ 10000) ∧
    fireTimer 0 5 (scheduleSave 2000 10000 sampleNote 3 armedAutoSave)
      = scheduleSave 2000 10000 sampleNote 3 armedAutoSave ∧
    (fireTimer 1 7 (fireTimer 0 5 armedAutoSave)).saved
      = (fireTimer 0 5 armedAutoSave).saved :=
  ⟨claim_C7_delay_bounds_and_single_fire.1 2000 10000 9950 (by decide) (by decide),
   claim_C7_delay_bounds_and_single_fire.2.1 2000 10000 sampleNote 3 5 armedAutoSave 0
     (by intro t ht; simp [armedAutoSave] at ht; show t < 1; omega) rfl,
   claim_C7_delay_bounds_and_single_fire.2.2 armedAutoSave 0 5 1 7 rfl⟩

/-- C8: restoring a note to one of its recorded versions copies exactly the
snapshot's title and content into the live note, recomputes
`plainTextContent` from the restored content, bumps `updatedAt` to the
restore time, and leaves both the `versions` list and the `version` counter
unchanged — no new version is created by the restore. -/
theorem claim_C8_restore_exact_and_frame (ept : String → String) (note : Note)
    (versionId : String) (v : NoteVersion) (now : Nat)
    (_hfind : NoteService.findVersion note versionId = some v) :
    (NoteService.restoreApply ept note v now).title = v.title ∧
    (NoteService.restoreApply ept note v now).content = v.content ∧
    (NoteService.restoreApply ept note v now).plainTextContent = ept v.content ∧
    (NoteService.restoreApply ept note v now).updatedAt = now ∧
    (NoteService.restoreApply ept note v now).versions = note.versions ∧
    (NoteService.restoreApply ept note v now).version = note.version :=
  ⟨rfl, rfl, rfl, rfl, rfl, rfl⟩

/-- The note `sampleNote` with one recorded snapshot (`"v1"`, number 1). -/
def versionedNote : Note :=
  (NoteService.createVersionLocal sampleNote "v1" "c0" "T0" 1).1

/-- The snapshot recorded inside `versionedNote`. -/
def sampleVersion : NoteVersion :=
  { id := "v1", noteId := "n1", content := "c0", title := "T0",
    timestamp := 1, versionNumber := 1 }

/-- Witness for C8: restoring `versionedNote` to its snapshot `"v1"`. -/
theorem claim_C8_witness :
    (NoteService.restoreApply idEpt versionedNote sampleVersion 2).title
      = sampleVersion.title ∧
    (NoteService.restoreApply idEpt versionedNote sampleVersion 2).content
      = sampleVersion.content ∧
    (NoteService.restoreApply idEpt versionedNote sampleVersion 2).plainTextContent
      = idEpt sampleVersion.content ∧
    (NoteService.restoreApply idEpt versionedNote sampleVersion 2).updatedAt = 2 ∧
    (NoteService.restoreApply idEpt versionedNote sampleVersion 2).versions
      = versionedNote.versions ∧
    (NoteService.restoreApply idEpt versionedNote sampleVersion 2).version
      = versionedNote.version :=
  claim_C8_restore_exact_and_frame idEpt versionedNote "v1" sampleVersion 2 rfl

/-- A point-cache write is immediately visible to lookups of the same id. -/
theorem cacheLookup_cacheSet_self (c : List (String × Note)) (id : String) (n : Note) :
    cacheLookup (cacheSet c id n) id = some n := by
  simp [cacheLookup, cacheSet, List.find?]

/-- A store upsert is immediately visible to reads of the written note's id. -/
theorem storeGet_storePut_self (st : List Note) (u : Note) :
    storeGet (storePut st u) u.id = some u := by
  simp [storeGet, storePut, List.find?]

/-- Reading through `DatabaseService.getNote` never changes the store contents. -/
theorem getNote_store_eq (id : String) (ok : Bool) (s : DBState) :
    ((DatabaseService.getNote id ok s).2).store = s.store := by
  unfold DatabaseService.getNote
  rcases cacheLookup s.notesCache id with _ | m
  · rcases ok
    · rfl
    · rcases storeGet s.store id with _ | m2 <;> rfl
  · rfl

/-- With a well-keyed point cache, any note `DatabaseService.getNote` returns
carries the requested id. -/
theorem getNote_some_id (s : DBState) (id : String) (ok : Bool) (n : Note)
    (hwf : ∀ k m, cacheLookup s.notesCache k = some m → m.id = k)
    (hget : (DatabaseService.getNote id ok s).1 = some n) : n.id = id := by
  unfold DatabaseService.getNote at hget
  rcases hc : cacheLookup s.notesCache id with _ | m
  · rw [hc] at hget
    rcases ok
    · simp at hget
    · rcases hs : storeGet s.store id with _ | m2
      · rw [hs] at hget
        simp at hget
      · rw [hs] at hget
        simp at hget
        subst hget
        have hs2 : List.find? (fun x => x.id = id) s.store = some m2 := hs
        have hp := List.find?_some hs2
        simpa using hp
  · rw [hc] at hget
    simp at hget
    subst hget
    exact hwf id m hc

/-- A successful read leaves the requested note in the point cache of the
resulting state. -/
theorem getNote_cache_after (s : DBState) (id : String) (n : Note)
    (hget : (DatabaseService.getNote id true s).1 = some n) :
    cacheLookup ((DatabaseService.getNote id true s).2).notesCache id = some n := by
  unfold DatabaseService.getNote at hget ⊢
  rcases hc : cacheLookup s.notesCache id with _ | m
  · rcases hs : storeGet s.store id with _ | m2
    · rw [hc, hs] at hget
      simp at hget
    · rw [hc, hs] at hget
      simp at hget ⊢
      subst hget
      exact cacheLookup_cacheSet_self s.notesCache id m2
  · rw [hc] at hget
    simp at hget
    subst hget
    simpa using hc

/-- Reading the same id again right after a successful read yields the same
note without further state change (the first read populated the point
cache). -/
theorem getNote_read_own_read (s : DBState) (id : String) (n : Note)
    (hget : (DatabaseService.getNote id true s).1 = some n) :
    DatabaseService.getNote id true (DatabaseService.getNote id true s).2
      = (some n, (DatabaseService.getNote id true s).2) := by
  have hcache := getNote_cache_after s id n hget
  set s2 := (DatabaseService.getNote id true s).2 with hs2
  show DatabaseService.getNote id true s2 = (some n, s2)
  unfold DatabaseService.getNote
  rw [hcache]

/-- A stored note whose timestamps are all 5. -/
def n5 : Note := NoteService.createNoteLocal idEpt "n1" "T" "c" 5

/-- Database state holding only `n5`, with empty caches. -/
def db5 : DBState :=
  { store := [n5], notesCache := [], allNotesCache := none, cacheTimestamp := 0 }

/-- Store contents after a (successful) `NoteService.getNote` read. -/
def readStoreAfterGet (ept : String → String) (id : String) (now : Nat)
    (s : DBState) : List Note :=
  match NoteService.getNote ept id now true s with
  | Except.ok p => p.2.store
  | Except.error _ => []

/-- C9 counterexample: a pure read of `n5` (stored `updatedAt = 5`) through
`NoteService.getNote` at time 10 persists a touched note whose `updatedAt`
is 10 — the read does not leave `updatedAt` unchanged, because the
`lastAccessedAt` touch goes through `NoteService.updateNote`, which always
bumps `updatedAt`. -/
theorem claim_C9_counterexample :
    n5.updatedAt = 5 ∧
    (storeGet (readStoreAfterGet idEpt "n1" 10 db5) "n1").map Note.updatedAt = some 10 ∧
    (storeGet (readStoreAfterGet idEpt "n1" 10 db5) "n1").map Note.lastAccessedAt = some 10 ∧
    some (10 : Nat) ≠ some 5 :=
  ⟨rfl, rfl, rfl, by decide⟩

/-- C9 (amended): `NoteService.getNote` is not a pure read — when the note
exists it persists the `lastAccessedAt` touch through `NoteService.updateNote`,
which bumps `updatedAt` as well, so after the read the stored note has both
`lastAccessedAt` and `updatedAt` equal to the read time; and every
`NoteService.updateNote` mutation sets `updatedAt` to the mutation time. -/
theorem claim_C9_read_touches_both_timestamps (ept : String → String)
    (s : DBState) (id : String) (now : Nat)
    (hwf : ∀ k m, cacheLookup s.notesCache k = some m → m.id = k)
    (existing : Note)
    (hget : (DatabaseService.getNote id true s).1 = some existing) :
    (∀ (n : Note) (u : NoteUpdates) (t : Nat),
      (NoteService.updateNoteLocal ept n u t).updatedAt = t) ∧
    ∃ p, NoteService.getNote ept id now true s = Except.ok p ∧
      p.1 = some existing ∧
      storeGet p.2.store id
        = some (NoteService.updateNoteLocal ept existing { lastAccessedAt := some now } now) ∧
      (NoteService.updateNoteLocal ept existing
        { lastAccessedAt := some now } now).lastAccessedAt = now ∧
      (NoteService.updateNoteLocal ept existing
        { lastAccessedAt := some now } now).updatedAt = now := by
  constructor
  · intro n u t
    rfl
  · have hread2 := getNote_read_own_read s id existing hget
    have hid : existing.id = id := getNote_some_id s id true existing hwf hget
    have hid2 : (NoteService.updateNoteLocal ept existing
        { lastAccessedAt := some now } now).id = id := hid
    simp only [NoteService.getNote]
    rw [hget]
    simp only [NoteService.updateNote]
    rw [hread2]
    simp only [DatabaseService.saveNote, if_true]
    refine ⟨_, rfl, rfl, ?_, rfl, rfl⟩
    have h0 := storeGet_storePut_self ((DatabaseService.getNote id true s).2).store
      (NoteService.updateNoteLocal ept existing { lastAccessedAt := some now } now)
    rw [hid2] at h0
    exact h0

/-- Witness for C9 (amended): reading `n5` from `db5` at time 10 leaves the
stored note with both timestamps bumped to 10. -/
theorem claim_C9_witness :
    (NoteService.updateNoteLocal idEpt n5
      { lastAccessedAt := some 10 } 10).lastAccessedAt = 10 ∧
    (NoteService.updateNoteLocal idEpt n5
      { lastAccessedAt := some 10 } 10).updatedAt = 10 := by
  have h := claim_C9_read_touches_both_timestamps idEpt db5 "n1" 10
    (by intro k m hm; simp [db5, cacheLookup] at hm) n5 rfl
  obtain ⟨p, -, -, -, h4, h5⟩ := h.2
  exact ⟨h4, h5⟩

/-- C10: `NoteService.decryptNote` never writes to the persistent store —
the store contents after the call are exactly the store contents before it
(so a stored encrypted note keeps `isEncrypted = true` and its ciphertext
envelope) — and any note it returns on success is an in-memory copy with
`isEncrypted := false`, `hasBeenEncrypted := true` and the decrypted fields,
derived from a stored note that is encrypted with an envelope on record. -/
theorem claim_C10_unlock_leaves_store_unchanged (ept : String → String)
    (id password : String) (storeOk : Bool) (st : AppState) :
    ((NoteService.decryptNote ept id password storeOk st).2).db.store = st.db.store ∧
    ∀ n, (NoteService.decryptNote ept id password storeOk st).1 = Except.ok (some n) →
      n.isEncrypted = false ∧ n.hasBeenEncrypted = true ∧
      ∃ note env f,
        (DatabaseService.getNote id storeOk st.db).1 = some note ∧
        note.isEncrypted = true ∧
        note.encryptedData = some env ∧
        EncryptionService.decryptNote env.content env.title password env.salt
          = Except.ok f ∧
        n = NoteService.decryptApply ept note f := by
  have hstore := getNote_store_eq id storeOk st.db
  unfold NoteService.decryptNote
  rcases hr : (DatabaseService.getNote id storeOk st.db).1 with _ | note
  · exact ⟨by simp [hr, hstore], by intro n h; simp [hr] at h⟩
  · rcases henc : note.isEncrypted with _ | _
    · exact ⟨by simp [hr, henc, hstore], by intro n h; simp [hr, henc] at h⟩
    · rcases he : note.encryptedData with _ | env
      · exact ⟨by simp [hr, henc, he, hstore], by intro n h; simp [hr, henc, he] at h⟩
      · rcases hd : EncryptionService.decryptNote env.content env.title password env.salt
          with e | f
        · exact ⟨by simp [hr, henc, he, hd, hstore],
            by intro n h; simp [hr, henc, he, hd] at h⟩
        · refine ⟨by simp [hr, henc, he, hd, hstore], ?_⟩
          intro n h
          simp [hr, henc, he, hd] at h
          subst h
          exact ⟨rfl, rfl, note, env, f, rfl, henc, he, hd, rfl⟩

/-- Process state whose store holds only the locked `lockedHelloNote`. -/
def lockedApp : AppState :=
  { db := { store := [lockedHelloNote], notesCache := [],
            allNotesCache := none, cacheTimestamp := 0 }
    sessionPasswords := [] }

/-- Witness for C10: unlocking `lockedHelloNote` with the correct password
leaves the store untouched and returns the decrypted in-memory copy. -/
theorem claim_C10_witness :
    ((NoteService.decryptNote idEpt "n1" "pw" true lockedApp).2).db.store
      = lockedApp.db.store ∧
    (NoteService.decryptApply idEpt lockedHelloNote
      { content := "hello", title := "T" }).isEncrypted = false ∧
    (NoteService.decryptApply idEpt lockedHelloNote
      { content := "hello", title := "T" }).hasBeenEncrypted = true := by
  have h := claim_C10_unlock_leaves_store_unchanged idEpt "n1" "pw" true lockedApp
  have h2 := h.2 (NoteService.decryptApply idEpt lockedHelloNote
    { content := "hello", title := "T" }) rfl
  exact ⟨h.1, h2.1, h2.2.1⟩
